import Mathlib

set_option linter.unusedVariables false

/-!
A shallow embedding of the spaced-repetition scheduling core of the
`usePlaylistManager` hook (the playlist/review state machine of the player
application), together with theorems settling the specification claims.

Modelling conventions:
* A JavaScript `Date` in local time is modelled by `Time`: `day` counts whole
  local days since an arbitrary epoch, `ms` the milliseconds within that day.
  `setHours(0,0,0,0)` is `Time.midnight`, `setDate(getDate()+n)` is
  `Time.addDays n`, `getTime()` is `Time.getTime`.
* The React state triple (`videos`, `playlists`, `collections`) is a record
  `PMState`; each stateful operation is a function `... → PMState → PMState`
  (or returning a pair when the source returns a value).  `setX(prev => e)`
  updater calls are applied sequentially in source order.
* `generateUUID` draws from a counter `nextId` carried in the state; the
  source draws random UUIDs, and nothing below depends on more than the
  freshness of ids at the concrete inputs considered.
* Fields that no scheduling operation reads (`file`, `fileUrl`, `name`,
  `dateAdded`, `episodeNumber`, collection `name`/`description`/`color`/
  `dateCreated`) and the external file-storage side effects
  (`fileStorage.*`, `URL.revokeObjectURL`) are omitted: they never feed back
  into the scheduling state.
-/

namespace PlayerCore

/-- Model of a JS `Date` (local time): `day` = whole days since a local epoch,
`ms` = milliseconds within the day. -/
structure Time where
  day : Nat
  ms : Nat
deriving DecidableEq, Repr

/-- `d.setHours(0,0,0,0)`: truncate to the local-midnight boundary. -/
def Time.midnight (t : Time) : Time := ⟨t.day, 0⟩

/-- `d.setDate(d.getDate() + n)`: shift by `n` whole days, keeping the time of
day. -/
def Time.addDays (n : Nat) (t : Time) : Time := ⟨t.day + n, t.ms⟩

/-- `d.getTime()`: total milliseconds. -/
def Time.getTime (t : Time) : Nat := t.day * 86400000 + t.ms

/-- `VideoFile.status`: `'new' | 'learning' | 'completed'`. -/
inductive VStatus where
  | new
  | learning
  | completed
deriving DecidableEq, Repr

/-- `'new' | 'review'` (the `reviewType` / `playlistType` tag). -/
inductive RType where
  | new
  | review
deriving DecidableEq, Repr

/-- The scheduling-relevant fields of `VideoFile`. -/
structure VideoFile where
  id : String
  collectionId : String
  status : VStatus
  reviewCount : Nat
  firstPlayDate : Option Time := none
  nextReviewDate : Option Time := none
deriving DecidableEq, Repr

/-- The scheduling-relevant fields of `Collection`. -/
structure Collection where
  id : String
  isActive : Bool
  totalVideos : Nat
  completedVideos : Nat
deriving DecidableEq, Repr

/-- `PlaylistItem`; the two optional fields are set only on review items. -/
structure PlaylistItem where
  videoId : String
  reviewType : RType
  reviewNumber : Nat
  daysSinceFirstPlay : Option Int := none
  isRecommendedForVideo : Option Bool := none
deriving DecidableEq, Repr

/-- `DailyPlaylist` (a session). -/
structure DailyPlaylist where
  id : String
  date : Time
  items : List PlaylistItem
  isCompleted : Bool
  lastPlayedIndex : Nat
  isExtraSession : Bool
  playlistType : RType
deriving DecidableEq, Repr

/-- The hook state: the three `useState` collections plus the id counter that
models `generateUUID`. -/
structure PMState where
  videos : List VideoFile
  playlists : List DailyPlaylist
  collections : List Collection
  nextId : Nat
deriving DecidableEq, Repr

/-- 新复习间隔：第1、4、7、15、30、90天. -/
def REVIEW_INTERVALS : List Nat := [1, 4, 7, 15, 30, 90]

def MAX_NEW_PER_DAY : Nat := 4

def MAX_REVIEW_PER_DAY : Nat := 600

/-- `generateUUID`, modelled as a counter draw. -/
def freshId (s : PMState) : String := Nat.repr s.nextId

/-- The function body mapped over `videos` in `markVideoAsPlayed`.  Returns
the updated video together with the `collectionId` whose `completedVideos`
counter the inner `setCollections` call bumps (if any). -/
def markVideoStep (now : Time) (videoId : String) (v : VideoFile) :
    VideoFile × Option String :=
  if v.id = videoId then
    match v.firstPlayDate with
    | none =>
      -- first play: next review at the following local midnight
      let nextReviewDate := Time.midnight (Time.addDays (REVIEW_INTERVALS.getD 0 0) now)
      ({ v with firstPlayDate := some now, reviewCount := 1,
                nextReviewDate := some nextReviewDate, status := VStatus.learning }, none)
    | some _ =>
      let newReviewCount := v.reviewCount + 1
      if newReviewCount < 5 then
        -- review: note the source applies no setHours truncation here
        let nextReviewDate := Time.addDays (REVIEW_INTERVALS.getD (newReviewCount - 1) 0) now
        ({ v with reviewCount := newReviewCount,
                  nextReviewDate := some nextReviewDate, status := VStatus.learning }, none)
      else
        ({ v with reviewCount := newReviewCount, nextReviewDate := none,
                  status := VStatus.completed }, some v.collectionId)
  else (v, none)

/-- The inner `setCollections` updater fired when a video completes. -/
def bumpCompleted (cid : String) (cols : List Collection) : List Collection :=
  cols.map fun c =>
    if c.id = cid then { c with completedVideos := c.completedVideos + 1 } else c

/-- `markVideoAsPlayed(videoId)` at instant `now`. -/
def markVideoAsPlayed (now : Time) (videoId : String) (s : PMState) : PMState :=
  let stepped := s.videos.map (markVideoStep now videoId)
  { s with
    videos := stepped.map Prod.fst,
    collections :=
      (stepped.filterMap Prod.snd).foldl (fun cols cid => bumpCompleted cid cols)
        s.collections }

/-- `getDaysSinceFirstPlay`: `Math.floor((today - firstPlayDate) / 86400000)`. -/
def getDaysSinceFirstPlay (now firstPlayDate : Time) : Int :=
  Int.fdiv ((now.getTime : Int) - (firstPlayDate.getTime : Int)) 86400000

/-- `collections.filter(c => c.isActive).map(c => c.id)`. -/
def activeCollectionIds (s : PMState) : List String :=
  (s.collections.filter fun c => c.isActive).map fun c => c.id

/-- `videos.filter(v => activeCollectionIds.includes(v.collectionId))`. -/
def activeVideosOf (s : PMState) : List VideoFile :=
  s.videos.filter fun v => decide (v.collectionId ∈ activeCollectionIds s)

/-- `getTodayNewVideos(isExtraSession)`. -/
def getTodayNewVideos (isExtraSession : Bool) (s : PMState) : List PlaylistItem :=
  let newVideos :=
    if isExtraSession then
      ((activeVideosOf s).filter fun v => decide (v.status = VStatus.new)).take
        (MAX_NEW_PER_DAY + 2)
    else
      ((activeVideosOf s).filter fun v => decide (v.status = VStatus.new)).take
        MAX_NEW_PER_DAY
  newVideos.map fun v =>
    { videoId := v.id, reviewType := RType.new, reviewNumber := 1 }

/-- Sort key for due reviews.  The source comparator is
`a.nextReviewDate.getTime() - b.nextReviewDate.getTime()`, returning `0`
(a tie) when either date is missing; every video reaching the sort has a
date, so keying missing dates by `0` realizes the same order. -/
def nrdTime (v : VideoFile) : Nat :=
  match v.nextReviewDate with
  | some d => d.getTime
  | none => 0

/-- The filter predicate of `getTodayReviews` (`today` is already the
midnight boundary): date present, not completed, and
`midnight(nextReviewDate) <= today`. -/
def isDueReview (today : Time) (v : VideoFile) : Bool :=
  match v.nextReviewDate with
  | none => false
  | some d =>
    decide (v.status ≠ VStatus.completed) &&
      decide ((Time.midnight d).getTime ≤ today.getTime)

/-- The sort comparator of `getTodayReviews` as a Bool-valued order. -/
def nrdLe (a b : VideoFile) : Bool := decide (nrdTime a ≤ nrdTime b)

/-- The filtered-and-sorted video list built inside `getTodayReviews`
(`reviewVideos` after the in-place `sort`). -/
def dueReviewVideos (now : Time) (s : PMState) : List VideoFile :=
  ((activeVideosOf s).filter (isDueReview (Time.midnight now))).mergeSort nrdLe

/-- The item constructor mapped over the sorted due videos. -/
def toReviewItem (now : Time) (v : VideoFile) : PlaylistItem :=
  { videoId := v.id,
    reviewType := RType.review,
    reviewNumber := v.reviewCount + 1,
    daysSinceFirstPlay :=
      some (match v.firstPlayDate with
            | some fp => getDaysSinceFirstPlay now fp
            | none => 0),
    isRecommendedForVideo := some (decide (v.reviewCount ∈ [3, 4, 5])) }

/-- `getTodayReviews()` at instant `now`. -/
def getTodayReviews (now : Time) (s : PMState) : List PlaylistItem :=
  (dueReviewVideos now s).map (toReviewItem now)

/-- The dedup predicate of `createTodayPlaylist` (and, identically, the
selection predicate of `getLastPlaylist`): an incomplete new-type playlist
whose creation day is `today` (a midnight boundary). -/
def isOpenNewToday (today : Time) (p : DailyPlaylist) : Bool :=
  decide (p.playlistType = RType.new) && !p.isCompleted &&
    decide ((Time.midnight p.date).getTime = today.getTime)

/-- `createTodayPlaylist(playlistType, isExtraSession)` at instant `now`:
returns the playlist handed back to the caller and the updated state. -/
def createTodayPlaylist (playlistType : RType) (isExtraSession : Bool)
    (now : Time) (s : PMState) : DailyPlaylist × PMState :=
  match playlistType with
  | RType.new =>
    match s.playlists.find? (isOpenNewToday (Time.midnight now)) with
    | some exist => (exist, s)
    | none =>
      let items := getTodayNewVideos isExtraSession s
      let playlist : DailyPlaylist :=
        { id := freshId s, date := now, items := items, isCompleted := false,
          lastPlayedIndex := 0, isExtraSession := isExtraSession,
          playlistType := RType.new }
      (playlist, { s with playlists := playlist :: s.playlists,
                          nextId := s.nextId + 1 })
  | RType.review =>
    let items := getTodayReviews now s
    let playlist : DailyPlaylist :=
      { id := freshId s, date := now, items := items, isCompleted := false,
        lastPlayedIndex := 0, isExtraSession := isExtraSession,
        playlistType := RType.review }
    (playlist, { s with playlists := playlist :: s.playlists,
                        nextId := s.nextId + 1 })

/-- `getLastPlaylist()` at instant `now`: the first incomplete new-type
playlist created today (`null` modelled as `none`). -/
def getLastPlaylist (now : Time) (s : PMState) : Option DailyPlaylist :=
  s.playlists.find? (isOpenNewToday (Time.midnight now))

/-- `updatePlaylistProgress(playlistId, lastPlayedIndex, isCompleted)` at
instant `now`.  The completion branch looks the playlist up in the
pre-update list (the closure value in the source) and invokes
`markVideoAsPlayed` on every item, in order. -/
def updatePlaylistProgress (playlistId : String) (lastPlayedIndex : Nat)
    (isCompleted : Bool) (now : Time) (s : PMState) : PMState :=
  let s1 : PMState :=
    { s with playlists := s.playlists.map fun p =>
        if p.id = playlistId then
          { p with lastPlayedIndex := lastPlayedIndex, isCompleted := isCompleted }
        else p }
  if isCompleted then
    match s.playlists.find? (fun p => decide (p.id = playlistId)) with
    | some playlist =>
      playlist.items.foldl (fun st item => markVideoAsPlayed now item.videoId st) s1
    | none => s1
  else s1

/-- `deleteVideo(videoId)`: adjust the owning collection counters
(`Math.max(0, x - 1)` is truncated `Nat` subtraction), then drop the video. -/
def deleteVideo (videoId : String) (s : PMState) : PMState :=
  let s1 : PMState :=
    match s.videos.find? (fun v => decide (v.id = videoId)) with
    | some video =>
      { s with collections := s.collections.map fun c =>
          if c.id = video.collectionId then
            { c with totalVideos := c.totalVideos - 1,
                     completedVideos :=
                       if video.status = VStatus.completed then
                         c.completedVideos - 1
                       else c.completedVideos }
          else c }
    | none => s
  { s1 with videos := s1.videos.filter fun v => decide (v.id ≠ videoId) }

/-- `removeVideoById(videoId)`: delete the video, then strip its references
from the item list of every playlist. -/
def removeVideoById (videoId : String) (s : PMState) : PMState :=
  let s1 := deleteVideo videoId s
  { s1 with playlists := s1.playlists.map fun p =>
      { p with items := p.items.filter fun item => decide (item.videoId ≠ videoId) } }

/-- `deleteCollection(collectionId)` (the file-storage cleanup is external). -/
def deleteCollection (collectionId : String) (s : PMState) : PMState :=
  { s with
    videos := s.videos.filter fun v => decide (v.collectionId ≠ collectionId),
    collections := s.collections.filter fun c => decide (c.id ≠ collectionId) }

/-! ### Helper lemmas -/

theorem list_map_id_of_mem {α : Type} (f : α → α) (l : List α)
    (h : ∀ x ∈ l, f x = x) : l.map f = l := by
  induction l with
  | nil => rfl
  | cons a t ih =>
    simp only [List.map_cons, h a (List.mem_cons_self a t),
      ih (fun x hx => h x (List.mem_cons_of_mem a hx))]

/-! ### Claim C1 -/

def vC1 : VideoFile :=
  { id := "a", collectionId := "c", status := VStatus.learning, reviewCount := 4,
    firstPlayDate := some ⟨0, 36000000⟩, nextReviewDate := some ⟨15, 0⟩ }

def sC1 : PMState :=
  { videos := [vC1], playlists := [],
    collections := [{ id := "c", isActive := true, totalVideos := 1, completedVideos := 0 }],
    nextId := 0 }

/-- C1: the claim says a video becomes `completed` exactly when
`reviewCount >= REVIEW_INTERVALS.length = 6` (the 6th playthrough).  The code
instead guards the review branch with `newReviewCount < 5` : a learning video
with `reviewCount = 4` becomes `completed` on its 5th playthrough, with
`reviewCount = 5 < 6`, so the 30- and 90-day intervals promised by the
source's own comments are never scheduled.  This theorem evaluates the code
at that failing input. -/
theorem C1_completed_at_fifth_playthrough :
    REVIEW_INTERVALS.length = 6 ∧
    (markVideoAsPlayed ⟨15, 40000000⟩ "a" sC1).videos =
      [{ vC1 with reviewCount := 5, status := VStatus.completed,
                  nextReviewDate := none }] ∧
    (markVideoAsPlayed ⟨15, 40000000⟩ "a" sC1).collections =
      [{ id := "c", isActive := true, totalVideos := 1, completedVideos := 1 }] := by
  decide

/-! ### Claim C2 -/

/-- The per-video update of `markVideoAsPlayed` lands in the resulting video
list. -/
theorem markVideoStep_mem (now : Time) (vid : String) (v : VideoFile)
    (s : PMState) (hmem : v ∈ s.videos) :
    (markVideoStep now vid v).1 ∈ (markVideoAsPlayed now vid s).videos := by
  simp only [markVideoAsPlayed]
  exact List.mem_map_of_mem Prod.fst (List.mem_map_of_mem (markVideoStep now vid) hmem)

/-- Evaluation of `markVideoStep` on a never-played video. -/
theorem markVideoStep_first (now : Time) (v : VideoFile)
    (hfp : v.firstPlayDate = none) :
    markVideoStep now v.id v =
      ({ v with status := VStatus.learning, reviewCount := 1,
                firstPlayDate := some now,
                nextReviewDate :=
                  some (Time.midnight (Time.addDays (REVIEW_INTERVALS.getD 0 0) now)) },
        none) := by
  obtain ⟨vid, cid, st, rc, fpd, nrd⟩ := v
  simp only at hfp
  subst hfp
  rw [markVideoStep, if_pos rfl]

/-- Evaluation of `markVideoStep` on a previously played video whose new
review count stays below 5. -/
theorem markVideoStep_review (now : Time) (v : VideoFile) (fp : Time)
    (hfp : v.firstPlayDate = some fp) (h5 : v.reviewCount + 1 < 5) :
    markVideoStep now v.id v =
      ({ v with status := VStatus.learning, reviewCount := v.reviewCount + 1,
                nextReviewDate :=
                  some (Time.addDays
                    (REVIEW_INTERVALS.getD (v.reviewCount + 1 - 1) 0) now) },
        none) := by
  obtain ⟨vid, cid, st, rc, fpd, nrd⟩ := v
  simp only at hfp h5
  subst hfp
  rw [markVideoStep, if_pos rfl, if_pos h5]

/-- Evaluation of `markVideoStep` on a previously played video whose new
review count reaches 5: the video completes. -/
theorem markVideoStep_complete (now : Time) (v : VideoFile) (fp : Time)
    (hfp : v.firstPlayDate = some fp) (h5 : ¬(v.reviewCount + 1 < 5)) :
    markVideoStep now v.id v =
      ({ v with status := VStatus.completed, reviewCount := v.reviewCount + 1,
                nextReviewDate := none },
        some v.collectionId) := by
  obtain ⟨vid, cid, st, rc, fpd, nrd⟩ := v
  simp only at hfp h5
  subst hfp
  rw [markVideoStep, if_pos rfl, if_neg h5]

def sC2 : PMState :=
  { videos := [{ id := "a", collectionId := "c", status := VStatus.learning,
                 reviewCount := 1, firstPlayDate := some ⟨9, 5000⟩,
                 nextReviewDate := some ⟨10, 0⟩ }],
    playlists := [],
    collections := [{ id := "c", isActive := true, totalVideos := 1, completedVideos := 0 }],
    nextId := 0 }

/-- C2 counterexample: the claim says that after the k-th playthrough
`nextReviewDate = midnight(now + REVIEW_INTERVALS[k-1] days)` for k = 1..5.
For k = 2, playing a video with `reviewCount = 1` at `now = ⟨10, 5000⟩`
(5 seconds past midnight of day 10), the code stores `⟨14, 5000⟩` — the
interval of 4 days is added but the time of day is kept, so the stored date
is not the midnight boundary the claim requires. -/
theorem C2_counterexample :
    ((markVideoAsPlayed ⟨10, 5000⟩ "a" sC2).videos.map fun v => v.nextReviewDate)
      = [some ⟨14, 5000⟩] ∧
    (some (⟨14, 5000⟩ : Time) ≠
      some (Time.midnight (Time.addDays (REVIEW_INTERVALS.getD 1 0) ⟨10, 5000⟩))) := by
  decide

/-- C2 amended: after the k-th playthrough of a video (encoded as
`reviewCount = k - 1`, with `firstPlayDate` absent exactly for k = 1):
for k = 1 the code stores the midnight boundary of `now + 1 day`; for
k = 2..4 it stores `now + REVIEW_INTERVALS[k-1] days` with the time of day
preserved (no midnight truncation); and the 5th playthrough completes the
video and clears `nextReviewDate`, so no 5th review date exists. -/
theorem C2_amended (now : Time) (s : PMState) (v : VideoFile) (k : Nat)
    (hmem : v ∈ s.videos) (hk1 : 1 ≤ k) (hk5 : k ≤ 5)
    (hrc : v.reviewCount = k - 1)
    (hfp : v.firstPlayDate = none ↔ k = 1) :
    ∃ v' ∈ (markVideoAsPlayed now v.id s).videos,
      v'.reviewCount = k ∧
      (k = 1 → v'.nextReviewDate =
          some (Time.midnight (Time.addDays (REVIEW_INTERVALS.getD 0 0) now)) ∧
        v'.status = VStatus.learning) ∧
      ((2 ≤ k ∧ k ≤ 4) → v'.nextReviewDate =
          some (Time.addDays (REVIEW_INTERVALS.getD (k - 1) 0) now) ∧
        v'.status = VStatus.learning) ∧
      (k = 5 → v'.nextReviewDate = none ∧ v'.status = VStatus.completed) := by
  refine ⟨(markVideoStep now v.id v).1, markVideoStep_mem now v.id v s hmem, ?_⟩
  cases hfpv : v.firstPlayDate with
  | none =>
    have hk : k = 1 := hfp.mp hfpv
    subst hk
    rw [markVideoStep_first now v hfpv]
    dsimp only
    exact ⟨rfl, fun _ => ⟨rfl, rfl⟩, fun h => by omega, fun h => by omega⟩
  | some fp =>
    have hk : k ≠ 1 := fun h => by
      have := hfp.mpr h
      rw [hfpv] at this
      cases this
    have hk2 : 2 ≤ k := by omega
    by_cases h5 : v.reviewCount + 1 < 5
    · rw [markVideoStep_review now v fp hfpv h5]
      dsimp only
      refine ⟨by omega, fun h => by omega, fun h => ?_, fun h => by omega⟩
      have h1 : v.reviewCount + 1 - 1 = k - 1 := by omega
      rw [h1]
      exact ⟨rfl, rfl⟩
    · rw [markVideoStep_complete now v fp hfpv h5]
      dsimp only
      exact ⟨by omega, fun h => by omega, fun h => by omega, fun h => ⟨rfl, rfl⟩⟩

def vC2w : VideoFile :=
  { id := "a", collectionId := "c", status := VStatus.learning, reviewCount := 1,
    firstPlayDate := some ⟨9, 5000⟩, nextReviewDate := some ⟨10, 0⟩ }

def sC2w : PMState :=
  { videos := [vC2w], playlists := [],
    collections := [{ id := "c", isActive := true, totalVideos := 1, completedVideos := 0 }],
    nextId := 0 }

/-- Witness for `C2_amended` at k = 2 on a concrete store. -/
theorem C2_amended_witness :
    (vC2w ∈ sC2w.videos ∧ 1 ≤ 2 ∧ 2 ≤ 5 ∧ vC2w.reviewCount = 2 - 1 ∧
      (vC2w.firstPlayDate = none ↔ 2 = 1)) ∧
    ∃ v' ∈ (markVideoAsPlayed ⟨10, 5000⟩ "a" sC2w).videos,
      v'.reviewCount = 2 ∧
      (2 = 1 → v'.nextReviewDate =
          some (Time.midnight (Time.addDays (REVIEW_INTERVALS.getD 0 0) ⟨10, 5000⟩)) ∧
        v'.status = VStatus.learning) ∧
      ((2 ≤ 2 ∧ 2 ≤ 4) → v'.nextReviewDate =
          some (Time.addDays (REVIEW_INTERVALS.getD (2 - 1) 0) ⟨10, 5000⟩) ∧
        v'.status = VStatus.learning) ∧
      (2 = 5 → v'.nextReviewDate = none ∧ v'.status = VStatus.completed) :=
  ⟨⟨by decide, by decide, by decide, by decide, by decide⟩,
   C2_amended ⟨10, 5000⟩ sC2w vC2w 2 (by decide) (by decide) (by decide)
     (by decide) (by decide)⟩

/-! ### Claim C7 -/

def vC7 : VideoFile :=
  { id := "a", collectionId := "c", status := VStatus.completed, reviewCount := 5,
    firstPlayDate := some ⟨0, 0⟩, nextReviewDate := none }

def sC7 : PMState :=
  { videos := [vC7], playlists := [],
    collections := [{ id := "c", isActive := true, totalVideos := 1, completedVideos := 1 }],
    nextId := 0 }

/-- C7 counterexample: the claim says `completed` is terminal — no further
`markVideoAsPlayed` changes `reviewCount`, `status` or `nextReviewDate`.
Replaying a completed video (`reviewCount = 5`) bumps its `reviewCount` to 6
(the code never checks `status`), and also re-increments the owning
collection's `completedVideos` counter from 1 to 2. -/
theorem C7_counterexample :
    ((markVideoAsPlayed ⟨100, 0⟩ "a" sC7).videos.map fun v => v.reviewCount) = [6] ∧
    ((markVideoAsPlayed ⟨100, 0⟩ "a" sC7).collections.map
        fun c => c.completedVideos) = [2] := by
  decide

/-- C7 amended: replaying a completed video (`firstPlayDate` set,
`reviewCount ≥ 4`) keeps `status = completed` and keeps `nextReviewDate`
absent, but increments `reviewCount` by one on every invocation — the
state is terminal in `status` and `nextReviewDate` only, not in
`reviewCount`. -/
theorem C7_amended (now : Time) (s : PMState) (v : VideoFile) (fp : Time)
    (hmem : v ∈ s.videos) (hst : v.status = VStatus.completed)
    (hfp : v.firstPlayDate = some fp) (hrc : 4 ≤ v.reviewCount) :
    ∃ v' ∈ (markVideoAsPlayed now v.id s).videos,
      v'.reviewCount = v.reviewCount + 1 ∧ v'.status = VStatus.completed ∧
      v'.nextReviewDate = none := by
  refine ⟨(markVideoStep now v.id v).1, markVideoStep_mem now v.id v s hmem, ?_⟩
  have h5 : ¬(v.reviewCount + 1 < 5) := by omega
  rw [markVideoStep_complete now v fp hfp h5]
  dsimp only
  exact ⟨rfl, rfl, rfl⟩

/-- Witness for `C7_amended` on a concrete store. -/
theorem C7_amended_witness :
    (vC7 ∈ sC7.videos ∧ vC7.status = VStatus.completed ∧
      vC7.firstPlayDate = some ⟨0, 0⟩ ∧ 4 ≤ vC7.reviewCount) ∧
    ∃ v' ∈ (markVideoAsPlayed ⟨100, 0⟩ "a" sC7).videos,
      v'.reviewCount = vC7.reviewCount + 1 ∧ v'.status = VStatus.completed ∧
      v'.nextReviewDate = none :=
  ⟨⟨by decide, by decide, by decide, by decide⟩,
   C7_amended ⟨100, 0⟩ sC7 vC7 ⟨0, 0⟩ (by decide) (by decide) (by decide) (by decide)⟩

/-! ### Claim C3 -/

def sC3 : PMState :=
  { videos := [{ id := "a", collectionId := "c", status := VStatus.new, reviewCount := 0 }],
    playlists := [{ id := "p", date := ⟨0, 0⟩,
                    items := [{ videoId := "a", reviewType := RType.new, reviewNumber := 1 }],
                    isCompleted := false, lastPlayedIndex := 0,
                    isExtraSession := false, playlistType := RType.new }],
    collections := [{ id := "c", isActive := true, totalVideos := 1, completedVideos := 0 }],
    nextId := 0 }

/-- C3: the claim says completing the same session twice changes the items'
`reviewCount` by exactly 1 in total.  The code has no one-shot guard:
`updatePlaylistProgress(id, i, true)` re-invokes `markVideoAsPlayed` on every
item at each call, so a second completion advances `reviewCount` again
(0 → 1 after the first call, → 2 after the second). -/
theorem C3_double_completion_double_advances :
    ((updatePlaylistProgress "p" 1 true ⟨0, 100⟩ sC3).videos.map
        fun v => v.reviewCount) = [1] ∧
    ((updatePlaylistProgress "p" 1 true ⟨0, 200⟩
        (updatePlaylistProgress "p" 1 true ⟨0, 100⟩ sC3)).videos.map
        fun v => v.reviewCount) = [2] := by
  decide

/-! ### Claim C9 -/

def sC9 : PMState :=
  { videos := [{ id := "a", collectionId := "c", status := VStatus.new, reviewCount := 0 }],
    playlists := [{ id := "p", date := ⟨1, 0⟩,
                    items := [{ videoId := "a", reviewType := RType.new, reviewNumber := 1 }],
                    isCompleted := false, lastPlayedIndex := 0,
                    isExtraSession := false, playlistType := RType.new }],
    collections := [{ id := "c", isActive := true, totalVideos := 1, completedVideos := 0 }],
    nextId := 0 }

/-- C9: the claim says an unknown session id makes `updatePlaylistProgress`
fail loudly with a "not found" condition rather than silently leaving state
unchanged.  The code has no error path at all: with an id matching no stored
playlist (here `"q"` against a store whose only playlist is `"p"`), the map
touches nothing and the completion lookup finds nothing, so the call returns
the state unchanged and signals nothing. -/
theorem C9_unknown_session_silent_noop :
    updatePlaylistProgress "q" 3 true ⟨1, 50⟩ sC9 = sC9 := by
  decide

/-! ### Claim C4 -/

def sC4 : PMState := { videos := [], playlists := [], collections := [], nextId := 0 }

/-- C4 counterexample: the claim says `createTodayPlaylist(type, extra)`
called twice on the same day with no intervening completion returns the
identical session id for every playlist type.  For `type = review` the code
performs no lookup at all: each call creates a brand-new playlist, so the
two calls return different ids and the store ends up with two sessions. -/
theorem C4_counterexample :
    ((createTodayPlaylist RType.review false ⟨3, 777⟩
        (createTodayPlaylist RType.review false ⟨3, 500⟩ sC4).2).1.id ≠
      (createTodayPlaylist RType.review false ⟨3, 500⟩ sC4).1.id) ∧
    (createTodayPlaylist RType.review false ⟨3, 777⟩
        (createTodayPlaylist RType.review false ⟨3, 500⟩ sC4).2).2.playlists.length = 2 := by
  decide

/-- C4 amended: create-or-reuse holds only for `type = new`, and the lookup
key is just (today, type = new, incomplete) — the extra flag is ignored: a
second new-type call on the same day (any extra flags) returns the very
playlist of the first call and leaves the state unchanged.  For
`type = review` every call unconditionally prepends a fresh playlist. -/
theorem C4_amended (s : PMState) (now : Time) (e1 e2 e3 : Bool) :
    ((createTodayPlaylist RType.new e2 now
        (createTodayPlaylist RType.new e1 now s).2).1 =
      (createTodayPlaylist RType.new e1 now s).1 ∧
     (createTodayPlaylist RType.new e2 now
        (createTodayPlaylist RType.new e1 now s).2).2 =
      (createTodayPlaylist RType.new e1 now s).2) ∧
    (createTodayPlaylist RType.review e3 now s).2.playlists =
      (createTodayPlaylist RType.review e3 now s).1 :: s.playlists := by
  constructor
  · cases hfind : s.playlists.find? (isOpenNewToday (Time.midnight now)) with
    | some exist =>
      simp [createTodayPlaylist, hfind]
    | none =>
      have hpred : isOpenNewToday (Time.midnight now)
          { id := freshId s, date := now, items := getTodayNewVideos e1 s,
            isCompleted := false, lastPlayedIndex := 0, isExtraSession := e1,
            playlistType := RType.new } = true := by
        simp [isOpenNewToday]
      simp [createTodayPlaylist, hfind, List.find?_cons_of_pos _ hpred]
  · rfl

/-! ### Claim C5 -/

def sC5 : PMState :=
  { videos := [],
    playlists := [{ id := "p", date := ⟨0, 0⟩, items := [], isCompleted := false,
                    lastPlayedIndex := 3, isExtraSession := false,
                    playlistType := RType.new }],
    collections := [], nextId := 0 }

/-- C5 counterexample: the claim says `lastPlayedIndex` is monotonic
non-decreasing — no advance call ever decreases the cursor of an open
session.  The code assigns the given index unconditionally: advancing the
session `"p"` (stored cursor 3) with index 1 stores 1 < 3. -/
theorem C5_counterexample :
    ((updatePlaylistProgress "p" 1 false ⟨0, 10⟩ sC5).playlists.map
      fun p => p.lastPlayedIndex) = [1] := by
  decide

/-- C5 amended: `advance` overwrites `lastPlayedIndex` with the given index
unconditionally (so the cursor can decrease, and `isCompleted` is reset to
`false`); when the given index equals the stored cursor of every matching
incomplete session the resulting state is value-equal to the old one — the
code still performs the write, only the written value coincides. -/
theorem C5_amended (s : PMState) (pid : String) (idx : Nat) (now : Time)
    (h : ∀ p ∈ s.playlists, p.id = pid →
      p.lastPlayedIndex = idx ∧ p.isCompleted = false) :
    updatePlaylistProgress pid idx false now s = s ∧
    ∀ (j : Nat) (now2 : Time) (s2 : PMState) (q : DailyPlaylist),
      q ∈ (updatePlaylistProgress pid j false now2 s2).playlists → q.id = pid →
      q.lastPlayedIndex = j := by
  constructor
  · have hm : (s.playlists.map fun p =>
        if p.id = pid then { p with lastPlayedIndex := idx, isCompleted := false }
        else p) = s.playlists := by
      apply list_map_id_of_mem
      intro p hp
      by_cases hid : p.id = pid
      · obtain ⟨h1, h2⟩ := h p hp hid
        rw [if_pos hid]
        obtain ⟨a, b, c, d, e, f, g⟩ := p
        simp only at h1 h2
        subst h1
        subst h2
        rfl
      · rw [if_neg hid]
    simp only [updatePlaylistProgress, Bool.false_eq_true, if_false, hm]
  · intro j now2 s2 q hq hqid
    simp only [updatePlaylistProgress, Bool.false_eq_true, if_false] at hq
    obtain ⟨p, hp, rfl⟩ := List.mem_map.mp hq
    by_cases hid : p.id = pid
    · rw [if_pos hid]
    · rw [if_neg hid] at hqid ⊢
      exact absurd hqid hid

def sC5w : PMState :=
  { videos := [],
    playlists := [{ id := "p", date := ⟨0, 0⟩, items := [], isCompleted := false,
                    lastPlayedIndex := 2, isExtraSession := false,
                    playlistType := RType.new }],
    collections := [], nextId := 0 }

/-- Witness for `C5_amended` on a concrete store. -/
theorem C5_amended_witness :
    (∀ p ∈ sC5w.playlists, p.id = "p" →
      p.lastPlayedIndex = 2 ∧ p.isCompleted = false) ∧
    (updatePlaylistProgress "p" 2 false ⟨0, 99⟩ sC5w = sC5w ∧
     ∀ (j : Nat) (now2 : Time) (s2 : PMState) (q : DailyPlaylist),
       q ∈ (updatePlaylistProgress "p" j false now2 s2).playlists → q.id = "p" →
       q.lastPlayedIndex = j) :=
  ⟨by decide, C5_amended sC5w "p" 2 ⟨0, 99⟩ (by decide)⟩

/-! ### Claim C8 -/

def sC8 : PMState :=
  { videos := [{ id := "a", collectionId := "c", status := VStatus.new, reviewCount := 0 }],
    playlists := [{ id := "p", date := ⟨5, 3000⟩,
                    items := [{ videoId := "a", reviewType := RType.new, reviewNumber := 1 }],
                    isCompleted := false, lastPlayedIndex := 0,
                    isExtraSession := false, playlistType := RType.new }],
    collections := [{ id := "c", isActive := true, totalVideos := 1, completedVideos := 0 }],
    nextId := 0 }

/-- C8 counterexample: the claim says an incomplete new-type playlist whose
videos were all removed is purged, so `getLastPlaylist` never returns a
session with zero resolvable items.  After `removeVideoById "a"` deletes the
only referenced video, the playlist record survives with an empty item list
and `getLastPlaylist` still returns it. -/
theorem C8_counterexample :
    ((getLastPlaylist ⟨5, 9999⟩ (removeVideoById "a" sC8)).map
      fun p => p.items) = some [] := by
  decide

/-- C8 amended: `removeVideoById` filters the removed video's items out of
every playlist but never deletes a playlist record, and `getLastPlaylist`
afterwards returns exactly what it returned before, with the items filtered
— in particular a session emptied by the removal is still returned, not
purged. -/
theorem C8_amended (s : PMState) (vid : String) (now : Time) :
    (removeVideoById vid s).playlists =
      s.playlists.map (fun p =>
        { p with items := p.items.filter fun it => decide (it.videoId ≠ vid) }) ∧
    getLastPlaylist now (removeVideoById vid s) =
      (getLastPlaylist now s).map (fun p =>
        { p with items := p.items.filter fun it => decide (it.videoId ≠ vid) }) := by
  have hdel : (deleteVideo vid s).playlists = s.playlists := by
    simp only [deleteVideo]
    cases hf : s.videos.find? (fun v => decide (v.id = vid)) with
    | some video => rfl
    | none => rfl
  have h1 : (removeVideoById vid s).playlists =
      s.playlists.map (fun p =>
        { p with items := p.items.filter fun it => decide (it.videoId ≠ vid) }) := by
    simp only [removeVideoById]
    rw [hdel]
  refine ⟨h1, ?_⟩
  simp only [getLastPlaylist, h1]
  rw [List.find?_map]
  have hpf : (isOpenNewToday (Time.midnight now)) ∘ (fun p : DailyPlaylist =>
      { p with items := p.items.filter fun it => decide (it.videoId ≠ vid) }) =
      isOpenNewToday (Time.midnight now) := funext fun p => rfl
  rw [hpf]

/-! ### Claim C6 -/

/-- Characterization of the `getTodayReviews` filter predicate. -/
theorem isDueReview_iff (today : Time) (v : VideoFile) :
    isDueReview today v = true ↔
      v.status ≠ VStatus.completed ∧
      ∃ d, v.nextReviewDate = some d ∧
        (Time.midnight d).getTime ≤ today.getTime := by
  cases hn : v.nextReviewDate with
  | none =>
    simp only [isDueReview, hn]
    constructor
    · intro h
      cases h
    · rintro ⟨hst, d, hd, _⟩
      cases hd
  | some d =>
    simp only [isDueReview, hn, Bool.and_eq_true, decide_eq_true_eq]
    constructor
    · rintro ⟨hst, hle⟩
      exact ⟨hst, d, rfl, hle⟩
    · rintro ⟨hst, d2, hd2, hle⟩
      cases hd2
      exact ⟨hst, hle⟩

/-- Characterization of membership in the active-collection id list. -/
theorem mem_activeCollectionIds (s : PMState) (cid : String) :
    cid ∈ activeCollectionIds s ↔
      ∃ c, c ∈ s.collections ∧ c.isActive = true ∧ c.id = cid := by
  simp only [activeCollectionIds, List.mem_map, List.mem_filter]
  constructor
  · rintro ⟨c, ⟨hc, hact⟩, hid⟩
    exact ⟨c, hc, hact, hid⟩
  · rintro ⟨c, hc, hact, hid⟩
    exact ⟨c, ⟨hc, hact⟩, hid⟩

/-- C6: `getTodayReviews` is the image of `dueReviewVideos`, which contains
a video exactly when it lies in the store, its owning collection exists and
is active, it is not completed, and its `nextReviewDate` is present with
midnight boundary at or before today's; and the sequence is sorted ascending
by `nextReviewDate` (most overdue first). -/
theorem C6_getTodayReviews_correct (s : PMState) (now : Time) :
    (∀ v : VideoFile, v ∈ dueReviewVideos now s ↔
        (v ∈ s.videos ∧
         (∃ c, c ∈ s.collections ∧ c.isActive = true ∧ c.id = v.collectionId) ∧
         v.status ≠ VStatus.completed ∧
         (∃ d, v.nextReviewDate = some d ∧
            (Time.midnight d).getTime ≤ (Time.midnight now).getTime))) ∧
    getTodayReviews now s = (dueReviewVideos now s).map (toReviewItem now) ∧
    (dueReviewVideos now s).Pairwise (fun a b => nrdTime a ≤ nrdTime b) := by
  refine ⟨?_, rfl, ?_⟩
  · intro v
    simp only [dueReviewVideos, List.mem_mergeSort, List.mem_filter, activeVideosOf,
      decide_eq_true_eq, isDueReview_iff, mem_activeCollectionIds]
    constructor
    · rintro ⟨⟨h1, h2⟩, h3, h4⟩
      exact ⟨h1, h2, h3, h4⟩
    · rintro ⟨h1, h2, h3, h4⟩
      exact ⟨⟨h1, h2⟩, h3, h4⟩
  · have htrans : ∀ (a b c : VideoFile), nrdLe a b → nrdLe b c → nrdLe a c := by
      intro a b c hab hbc
      simp only [nrdLe, decide_eq_true_eq] at hab hbc ⊢
      omega
    have htot : ∀ (a b : VideoFile), nrdLe a b || nrdLe b a := by
      intro a b
      simp only [nrdLe, Bool.or_eq_true, decide_eq_true_eq]
      omega
    have h := List.sorted_mergeSort htrans htot
      ((activeVideosOf s).filter (isDueReview (Time.midnight now)))
    rw [dueReviewVideos]
    exact h.imp fun hab => of_decide_eq_true hab

/-! ### Claim C10 -/

/-- C10: after `deleteCollection c`, the store holds exactly the videos whose
`collectionId` differs from `c` (all others unchanged, by exact membership
preservation), the collection list holds exactly the collections with a
different id (in particular `c` is gone), and playlists are untouched. -/
theorem C10_deleteCollection_exact (s : PMState) (cid : String) :
    (∀ v : VideoFile, v ∈ (deleteCollection cid s).videos ↔
        v ∈ s.videos ∧ v.collectionId ≠ cid) ∧
    (∀ c : Collection, c ∈ (deleteCollection cid s).collections ↔
        c ∈ s.collections ∧ c.id ≠ cid) ∧
    (∀ c ∈ (deleteCollection cid s).collections, c.id ≠ cid) ∧
    (deleteCollection cid s).playlists = s.playlists := by
  refine ⟨?_, ?_, ?_, rfl⟩
  · intro v
    simp [deleteCollection, List.mem_filter]
  · intro c
    simp [deleteCollection, List.mem_filter]
  · intro c hc
    have := (List.mem_filter.mp hc).2
    simpa using this

end PlayerCore
